import Mathlib

/-!
Shallow embedding of the multi-tenant task-manager backend
(Express + TypeORM + Redis + Socket.IO) for specification checking.

Conventions of the embedding:
* Database ids (bigserial) travel through the JS code as strings, so ids are
  `String` here.
* A Redis list is a `List` whose head is the leftmost element (`lPush` conses
  at the head, `rPop` drops the last element).
* `JSON.stringify`/`JSON.parse` of an activity record round-trips the record
  (including the `toISOString`/`new Date` pair on `createdAt`, modelled as a
  millisecond timestamp), so cache entries are stored as structured records.
* JS truthiness on strings (`if (s)`, `a || b`) is modelled explicitly:
  the empty string is falsy.
-/

/-- Org-level role, from `src/db/enums.ts` (`OrgRole`). -/
inductive OrgRole where
  | OWNER
  | ADMIN
  | USER
  deriving DecidableEq, Fintype

/-- Project-level role, from `src/db/enums.ts` (`ProjectRole`). -/
inductive ProjectRole where
  | EDITOR
  | VIEWER
  deriving DecidableEq, Fintype

/-- Activity kind, from `src/db/enums.ts` (`ActivityKind`). -/
inductive ActivityKind where
  | WARN
  | ALERT
  | NOTIFY
  | ANNOUNCE
  | SHOW
  deriving DecidableEq, Fintype

/-- The string stored in the `kind` field of the serialized activity. -/
def ActivityKind.toName : ActivityKind → String
  | .WARN => "WARN"
  | .ALERT => "ALERT"
  | .NOTIFY => "NOTIFY"
  | .ANNOUNCE => "ANNOUNCE"
  | .SHOW => "SHOW"

/-- The check `Object.values(ActivityKind).includes(kind)` together with the
cast back to `ActivityKind`: a string is a valid kind iff it names one of the five
variants. -/
def parseActivityKind : String → Option ActivityKind
  | "WARN" => some .WARN
  | "ALERT" => some .ALERT
  | "NOTIFY" => some .NOTIFY
  | "ANNOUNCE" => some .ANNOUNCE
  | "SHOW" => some .SHOW
  | _ => none

/-- An activity record as stored in the Redis live cache and broadcast over
the websocket (`src/entity/activity.entity.ts` fields used by the services).
`createdAt` is the epoch-millisecond timestamp of the JS `Date`. -/
structure Activity where
  id : String
  organizationId : String
  actorId : String
  kind : ActivityKind
  message : String
  objectType : Option String
  objectId : Option String
  meta : List (String × String)
  createdAt : Nat
  deriving DecidableEq

/-! ## RedisActivityService (src/services/redis-activity.service.ts)

The per-room cache list `activities:<roomKey>` is `List Activity`, head =
leftmost = newest. -/

/-- The constant `maxActivities` in `storeActivity`. -/
def maxActivities : Nat := 20

/-- Method `RedisActivityService.storeActivity` acting on one room list:
check the current length; at or above capacity `rPop` the rightmost (oldest)
entry and `lPush` the new one, otherwise just `lPush`. -/
def storeActivity (l : List Activity) (a : Activity) : List Activity :=
  if l.length ≥ maxActivities then
    a :: l.dropLast
  else
    a :: l

/-- Method `RedisActivityService.getActivities` acting on one room list: read the
whole list, filter by `kind` when the parameter is a valid `ActivityKind`
string, then `slice((page-1)*limit, (page-1)*limit + limit)`; returns the
page and the (post-filter) total. -/
def getActivities (l : List Activity) (page limit : Nat) (kind : Option String) :
    List Activity × Nat :=
  let activities :=
    match kind with
    | some k =>
        if k ≠ "" ∧ (parseActivityKind k).isSome then
          l.filter (fun (a : Activity) => a.kind.toName == k)
        else l
    | none => l
  let startIndex := (page - 1) * limit
  ((activities.drop startIndex).take limit, activities.length)

/-- The `for (const activity of filteredActivities) lPush(key, activity)`
loop of `deleteActivity`: repeated head-pushes onto an accumulator. -/
def lPushLoop (items : List Activity) (acc : List Activity) : List Activity :=
  items.foldl (fun acc a => a :: acc) acc

/-- Method `RedisActivityService.deleteActivity` acting on one room list: filter out
every entry whose `id` equals `activityId`, delete the key, then re-insert
the survivors one by one with `lPush` (or leave the key deleted when nothing
survives). -/
def deleteActivity (l : List Activity) (activityId : String) : List Activity :=
  let filteredActivities := l.filter (fun (a : Activity) => a.id != activityId)
  if filteredActivities.length > 0 then
    lPushLoop filteredActivities []
  else
    []

/-- The redis-variant `ActivityService.logActivity` cache step, keyed by the
organization room: store into the room's list, leave other rooms alone. -/
def recordInCache (cache : String → List Activity) (roomKey : String) (a : Activity) :
    String → List Activity :=
  fun k => if k == roomKey then storeActivity (cache k) a else cache k

/-! ## ActivityService.logActivity, both variants (C4)

Two implementations of `ActivityService.logActivity` coexist in the source:
the database-backed one (`src/services/activity.service.ts`, saved durably via
TypeORM then broadcast) and the redis-backed one (shipped alongside
`src/services/websocket.service.ts`, stored only in the Redis live cache then
broadcast). Each run is modelled as the sequence of externally visible
effects it performs, with Boolean parameters for the outcomes of the
suspending steps. -/

/-- Externally visible effects of one `logActivity` call. -/
inductive LogEvent where
  | lookupQuery
  | dbSaveAttempt
  | dbSaveOk
  | cachePush
  | broadcast
  deriving DecidableEq, Fintype

/-- One completed (or thrown-out-of) `logActivity` call: the effects in
program order and whether the call threw. -/
structure LogRun where
  events : List LogEvent
  threw : Bool
  deriving DecidableEq

/-- Database-variant `ActivityService.logActivity`: look up the organization
room key and the actor, throw when either is missing; create and save the
activity through the repository (throwing on failure aborts the call before
the broadcast); on success broadcast over the websocket when the service is
available. There is no live-cache step in this variant. -/
def logActivityDb (orgFound actorFound saveSucceeds wsAvailable : Bool) : LogRun :=
  if !(orgFound && actorFound) then
    ⟨[.lookupQuery], true⟩
  else if !saveSucceeds then
    ⟨[.lookupQuery, .dbSaveAttempt], true⟩
  else if wsAvailable then
    ⟨[.lookupQuery, .dbSaveAttempt, .dbSaveOk, .broadcast], false⟩
  else
    ⟨[.lookupQuery, .dbSaveAttempt, .dbSaveOk], false⟩

/-- Redis-variant `ActivityService.logActivity`: look up the organization and
actor, build the activity in memory, `storeActivity` it into the Redis live
cache (throwing on failure aborts the call), then broadcast when the
websocket service is available. No database save is ever attempted. -/
def logActivityRedis (orgFound actorFound cacheSucceeds wsAvailable : Bool) : LogRun :=
  if !(orgFound && actorFound) then
    ⟨[.lookupQuery], true⟩
  else if !cacheSucceeds then
    ⟨[.lookupQuery], true⟩
  else if wsAvailable then
    ⟨[.lookupQuery, .cachePush, .broadcast], false⟩
  else
    ⟨[.lookupQuery, .cachePush], false⟩

/-- Every `broadcast` effect in the run comes strictly after a `dbSaveOk`
effect: no broadcast appears before the first successful durable save. -/
def broadcastOnlyAfterSave (evs : List LogEvent) : Bool :=
  (evs.takeWhile (fun e => e != LogEvent.dbSaveOk)).all (fun e => e != LogEvent.broadcast)

/-! ## Tenant context manager (src/utils/middleware/jwtMiddleWare.ts)

`setUserContextInDB` and the `setOrganizationContext` middleware, over a
relational state of users and `org_memberships` rows. -/

/-- One `org_memberships` row (`organization_id`, `user_id`, `role`);
primary key is the pair (organization_id, user_id). -/
structure OrgMembershipRow where
  organizationId : String
  userId : String
  role : OrgRole
  deriving DecidableEq

/-- The relational state the context manager consults: `users` ids and
`org_memberships` rows. -/
structure DBState where
  users : List String
  memberships : List OrgMembershipRow
  deriving DecidableEq

/-- An `org_memberships` row exists for the (user, organization) pair. -/
def hasMembershipRow (db : DBState) (userId organizationId : String) : Bool :=
  db.memberships.any (fun m => m.userId == userId && m.organizationId == organizationId)

/-- The verification query of `setUserContextInDB`:
`SELECT EXISTS (SELECT 1 FROM org_memberships om JOIN users u ON u.id =
om.user_id WHERE om.user_id = $1 AND om.organization_id = $2)`. -/
def membershipWithUserExists (db : DBState) (userId organizationId : String) : Bool :=
  db.memberships.any (fun m =>
    m.userId == userId && m.organizationId == organizationId
      && db.users.any (fun u => u == m.userId))

/-- The transaction-local GUCs `app.user_id` / `app.organization_id` set via
`set_config` on the request's connection. -/
structure SessionConfig where
  appUserId : Option String
  appOrganizationId : Option String
  deriving DecidableEq

/-- Session configuration before any `set_config` ran. -/
def initialSession : SessionConfig := ⟨none, none⟩

/-- The error thrown by `setUserContextInDB` when the membership check
fails (`User ... not authorized for organization ...`). -/
inductive CtxError where
  | notMember
  deriving DecidableEq

/-- Function `setUserContextInDB(queryRunner, userId, organizationId?)`: always set
`app.user_id`; when an organization id is provided, first verify the
membership row (joined with `users`) and throw if absent, otherwise set
`app.organization_id`. Returns the session configuration as left behind
together with the thrown error, if any. -/
def setUserContextInDB (db : DBState) (cfg : SessionConfig) (userId : String)
    (organizationId : Option String) : SessionConfig × Option CtxError :=
  let cfg1 := { cfg with appUserId := some userId }
  match organizationId with
  | none => (cfg1, none)
  | some orgId =>
      if membershipWithUserExists db userId orgId then
        ({ cfg1 with appOrganizationId := some orgId }, none)
      else
        (cfg1, some .notMember)

/-- Outcome of the `setOrganizationContext` middleware: either the request is
terminated with a status (so `next()` is never called, no business query of
the route handler runs, and `req.organizationId` is never assigned), or the
middleware proceeds to the handler carrying the request's `organizationId`
field and the session configuration. -/
inductive CtxOutcome where
  | forbidden (status : Nat) (cfg : SessionConfig)
  | proceed (requestOrganizationId : Option String) (cfg : SessionConfig)
  deriving DecidableEq

/-- The `setOrganizationContext` middleware, after the organization id has
been extracted from path/query/body/URL (`organizationId` is the extracted
value; JS truthiness makes the empty string count as absent): when an id was
extracted and a query runner is attached, run `setUserContextInDB` and on
success record the id on the request, on failure answer 403
(`Invalid organization access`); otherwise just fall through to `next()`. -/
def setOrganizationContext (db : DBState) (cfg : SessionConfig) (userId : String)
    (organizationId : Option String) (hasQueryRunner : Bool) : CtxOutcome :=
  match organizationId with
  | some orgId =>
      if orgId != "" && hasQueryRunner then
        match setUserContextInDB db cfg userId (some orgId) with
        | (cfg1, none) => .proceed (some orgId) cfg1
        | (cfg1, some _) => .forbidden 403 cfg1
      else
        .proceed none cfg
  | none => .proceed none cfg

/-! ## Activity feed endpoint (src/controller/activity.controller.ts, GET /)
(C2) -/

/-- The columns of `organizations` the feed endpoint reads. -/
structure OrganizationRow where
  id : String
  name : String
  roomKey : String
  deriving DecidableEq

/-- Response of the feed endpoint: 404 when the organization row is missing,
otherwise the paginated activities, the (post-filter) total and the verified
organization's room key as echoed in the `organization` object. -/
inductive FeedResponse where
  | notFound
  | ok (activities : List Activity) (total : Nat) (orgRoomKey : String)
  deriving DecidableEq

/-- Route `GET /` of the activity controller: look up the organization by the path
parameter, 404 when absent; pick `targetRoomKey = roomKey ||
organization.roomKey` (the caller-supplied query parameter wins whenever it
is truthy); read the activities from the Redis cache under that key. -/
def activityFeedGet (orgs : List OrganizationRow) (cache : String → List Activity)
    (organizationId : String) (roomKey : Option String) (page limit : Nat)
    (kind : Option String) : FeedResponse :=
  match orgs.find? (fun (o : OrganizationRow) => o.id == organizationId) with
  | none => .notFound
  | some org =>
      let targetRoomKey :=
        match roomKey with
        | some rk => if rk != "" then rk else org.roomKey
        | none => org.roomKey
      let res := getActivities (cache targetRoomKey) page limit kind
      .ok res.1 res.2 org.roomKey

/-! ## Organization membership endpoints (src/controller/organization.controller.ts)
(C3) -/

/-- Result of a route handler: the JSON success path carrying the updated
membership table, or a terminal HTTP error status. -/
inductive ApiResult (α : Type) where
  | ok (val : α)
  | err (status : Nat)
  deriving DecidableEq

/-- Query `SELECT role FROM org_memberships WHERE organization_id = $1 AND
user_id = $2` (first row, if any). -/
def getOrgRole (memberships : List OrgMembershipRow) (organizationId userId : String) :
    Option OrgRole :=
  (memberships.find? (fun m => m.organizationId == organizationId && m.userId == userId)).map
    (fun m => m.role)

/-- Decode one of the validated role strings. -/
def parseOrgRole : String → Option OrgRole
  | "OWNER" => some .OWNER
  | "ADMIN" => some .ADMIN
  | "USER" => some .USER
  | _ => none

/-- Query `UPDATE org_memberships SET role = $1 WHERE organization_id = $2 AND
user_id = $3`. -/
def setMemberRole (memberships : List OrgMembershipRow) (organizationId userId : String)
    (r : OrgRole) : List OrgMembershipRow :=
  memberships.map (fun m =>
    if m.organizationId == organizationId && m.userId == userId then
      { m with role := r }
    else m)

/-- Route `PUT /:organizationId/members/:userId` (update member role): validate the
role string; the caller must hold OWNER or ADMIN; nobody may change their own
role; an ADMIN may neither promote to OWNER nor modify an OWNER; then run the
role update. -/
def updateMemberRole (memberships : List OrgMembershipRow)
    (organizationId callerId targetUserId : String) (role : String) :
    ApiResult (List OrgMembershipRow) :=
  if !(role == "OWNER" || role == "ADMIN" || role == "USER") then .err 400
  else
    match getOrgRole memberships organizationId callerId with
    | none => .err 403
    | some callerRole =>
        if !(callerRole == OrgRole.OWNER || callerRole == OrgRole.ADMIN) then .err 403
        else if callerId == targetUserId then .err 403
        else if callerRole == OrgRole.ADMIN && role == "OWNER" then .err 403
        else if callerRole == OrgRole.ADMIN
            && getOrgRole memberships organizationId targetUserId == some OrgRole.OWNER then
          .err 403
        else
          match parseOrgRole role with
          | some r => .ok (setMemberRole memberships organizationId targetUserId r)
          | none => .err 400

/-- The two `UPDATE`s of the ownership transfer, in program order: demote the
calling owner to ADMIN, then promote the target member to OWNER. -/
def transferApply (memberships : List OrgMembershipRow)
    (organizationId callerId newOwnerId : String) : List OrgMembershipRow :=
  setMemberRole (setMemberRole memberships organizationId callerId OrgRole.ADMIN)
    organizationId newOwnerId OrgRole.OWNER

/-- Route `POST /:organizationId/transfer-ownership`: require a target id; the
caller must hold OWNER; the target must be a member; then run the two role
updates inside the surrounding transaction. -/
def transferOwnership (memberships : List OrgMembershipRow)
    (organizationId callerId newOwnerId : String) : ApiResult (List OrgMembershipRow) :=
  if newOwnerId == "" then .err 400
  else
    match getOrgRole memberships organizationId callerId with
    | some OrgRole.OWNER =>
        match getOrgRole memberships organizationId newOwnerId with
        | none => .err 404
        | some _ => .ok (transferApply memberships organizationId callerId newOwnerId)
    | _ => .err 403

/-- The membership tables a concurrent reader can observe while a transfer is
in flight: the two `UPDATE`s run inside the `withRls` transaction
(`startTransaction` … `commitTransaction`), so uncommitted writes are
invisible and a reader sees either the pre-state or the committed
post-state, never the half-transferred table. -/
def transferObservableStates (memberships : List OrgMembershipRow)
    (organizationId callerId newOwnerId : String) : List (List OrgMembershipRow) :=
  [memberships, transferApply memberships organizationId callerId newOwnerId]

/-- Number of OWNER rows of one organization. -/
def countOwners (memberships : List OrgMembershipRow) (organizationId : String) : Nat :=
  memberships.countP (fun m => m.organizationId == organizationId && m.role == OrgRole.OWNER)

/-- The primary key (organization_id, user_id) of `org_memberships`: no two
rows share both fields. -/
def KeysDistinct (memberships : List OrgMembershipRow) : Prop :=
  memberships.Pairwise (fun a b => a.organizationId ≠ b.organizationId ∨ a.userId ≠ b.userId)

instance (memberships : List OrgMembershipRow) : Decidable (KeysDistinct memberships) :=
  List.instDecidablePairwise memberships

/-! ## Project and task update permission checks
(src/controller/project.controller.ts PUT /:projectId,
src/controller/task.controller.ts PUT /:projectId/tasks/:taskId) (C5, C6) -/

/-- The access expression shared by the project-update and task-update
handlers (`canEdit` / `isEditor` in the source):
`project_role === 'EDITOR' || ['OWNER', 'ADMIN'].includes(org_role)`. Both
roles come from LEFT JOINs and may be null. -/
def canEditProjectAccess (projectRole : Option ProjectRole) (orgRole : Option OrgRole) :
    Bool :=
  projectRole == some ProjectRole.EDITOR
    || (orgRole == some OrgRole.OWNER || orgRole == some OrgRole.ADMIN)

/-- One row of the `projects` table as the update handler sees it. -/
structure ProjectRow where
  id : String
  organizationId : String
  name : String
  slug : String
  deriving DecidableEq

/-- Outcome of `PUT /:projectId` (update project). -/
inductive ProjectUpdateOutcome where
  | notFound
  | forbidden
  | slugConflict
  | noFields
  | updated
  deriving DecidableEq

/-- Route `PUT /:projectId` (update project): 404 when the project row (with its
role join) is absent; 403 unless `canEdit`; 409 when a changed slug is
already taken; 400 when no field is supplied; otherwise run the UPDATE.
`name`/`slug` use JS truthiness — the empty string counts as absent. Returns
the outcome together with the resulting projects table. -/
def updateProjectHandler (projects : List ProjectRow) (organizationId projectId : String)
    (userAccess : Option (Option ProjectRole × Option OrgRole))
    (name slug : String) (slugTaken : Bool) : ProjectUpdateOutcome × List ProjectRow :=
  match userAccess with
  | none => (.notFound, projects)
  | some (projectRole, orgRole) =>
      if !(canEditProjectAccess projectRole orgRole) then
        (.forbidden, projects)
      else if slug != "" && slugTaken then
        (.slugConflict, projects)
      else if name == "" && slug == "" then
        (.noFields, projects)
      else
        (.updated, projects.map (fun p =>
          if p.id == projectId && p.organizationId == organizationId then
            { p with
              name := if name != "" then name else p.name
              slug := if slug != "" then slug else p.slug }
          else p))

/-- Which of the seven updatable task fields the request body supplies
(`!== undefined` in the handler). -/
structure TaskUpdateBody where
  title : Bool
  description : Bool
  status : Bool
  assigneeId : Bool
  dueDate : Bool
  priority : Bool
  orderInBoard : Bool
  deriving DecidableEq

/-- Some supplied field other than `status`: the exact disjunction of the
handler's second permission check. -/
def nonStatusFieldPresent (b : TaskUpdateBody) : Bool :=
  b.title || b.description || b.assigneeId || b.dueDate || b.priority || b.orderInBoard

/-- Some supplied field at all (the `updateFields.length === 0` check). -/
def anyFieldPresent (b : TaskUpdateBody) : Bool :=
  b.title || b.description || b.status || b.assigneeId || b.dueDate || b.priority
    || b.orderInBoard

/-- Outcome of `PUT /:projectId/tasks/:taskId`. -/
inductive TaskUpdateOutcome where
  | taskNotFound
  | forbiddenStatus
  | forbiddenFields
  | badAssignee
  | noFields
  | updated
  deriving DecidableEq

/-- Route `PUT /:projectId/tasks/:taskId` (update task): 404 when the task is
absent; 403 when `status` is supplied by a caller who is neither the
assignee nor an editor; 403 when any other field is supplied by a
non-editor; 400 when a non-null new assignee is not a project member; 400
when no field is supplied; otherwise run the UPDATE. -/
def updateTaskHandler (taskFound : Bool) (isAssignee : Bool)
    (projectRole : Option ProjectRole) (orgRole : Option OrgRole)
    (b : TaskUpdateBody) (assigneeNull : Bool) (assigneeIsMember : Bool) :
    TaskUpdateOutcome :=
  if !taskFound then .taskNotFound
  else
    let isEditor := canEditProjectAccess projectRole orgRole
    if b.status && !isAssignee && !isEditor then .forbiddenStatus
    else if nonStatusFieldPresent b && !isEditor then .forbiddenFields
    else if b.assigneeId && !assigneeNull && !assigneeIsMember then .badAssignee
    else if !(anyFieldPresent b) then .noFields
    else .updated

/-! ## Concrete records used by the witnesses -/

def act0 : Activity :=
  { id := "a0", organizationId := "org1", actorId := "u1", kind := .NOTIFY
    message := "m0", objectType := none, objectId := none, meta := [], createdAt := 0 }

def act1 : Activity :=
  { id := "a1", organizationId := "org1", actorId := "u1", kind := .NOTIFY
    message := "m1", objectType := none, objectId := none, meta := [], createdAt := 1 }

/-- Concrete relational state for the C1 witness: one user, member of one
organization. -/
def dbC1 : DBState :=
  { users := ["u1"], memberships := [⟨"org1", "u1", .OWNER⟩] }

/-- Concrete organization for the C2 theorems. -/
def orgC2 : OrganizationRow := ⟨"1", "Acme", "room-1"⟩

/-- Concrete Redis cache for the C2 theorems: one activity is stored under
the room keyed by the empty string, nothing anywhere else — in particular
nothing under the organization's own room. -/
def cacheC2 : String → List Activity :=
  fun k => if k == "" then [act0] else []

/-- Concrete membership table for the C3 theorems: one OWNER and one plain
member of a single organization. -/
def dbC3 : List OrgMembershipRow :=
  [⟨"org1", "u1", .OWNER⟩, ⟨"org1", "u2", .USER⟩]

/-- Concrete project row for the C6 witness. -/
def projC6 : ProjectRow := ⟨"p1", "org1", "Proj", "proj"⟩

/-! ## Helper lemmas -/

theorem lPushLoop_eq_reverse_append (items acc : List Activity) :
    lPushLoop items acc = items.reverse ++ acc := by
  induction items generalizing acc with
  | nil => simp [lPushLoop]
  | cons a t ih =>
      simp only [lPushLoop, List.foldl_cons] at *
      rw [ih (a :: acc)]
      simp

theorem countOwners_def (ms : List OrgMembershipRow) (o : String) :
    countOwners ms o
      = ms.countP (fun m => m.organizationId == o && m.role == OrgRole.OWNER) := rfl

theorem countP_key_le_one (ms : List OrgMembershipRow) (h : KeysDistinct ms)
    (o u : String) :
    ms.countP (fun m => m.organizationId == o && m.userId == u) ≤ 1 := by
  have h' : ms.Pairwise
      (fun x y => x.organizationId ≠ y.organizationId ∨ x.userId ≠ y.userId) := h
  clear h
  induction h' with
  | nil => simp
  | @cons a t ha ht ih =>
      rw [List.countP_cons]
      by_cases hp : (a.organizationId == o && a.userId == u) = true
      · have h0 : t.countP (fun m => m.organizationId == o && m.userId == u) = 0 := by
          apply List.countP_eq_zero.mpr
          intro b hb hpb
          simp only [Bool.and_eq_true, beq_iff_eq] at hp hpb
          rcases ha b hb with hne | hne
          · exact hne (hp.1.trans hpb.1.symm)
          · exact hne (hp.2.trans hpb.2.symm)
        simp [hp, h0]
      · simp only [hp, if_false]
        simpa using ih

theorem getOrgRole_count_one (ms : List OrgMembershipRow) (hk : KeysDistinct ms)
    (o u : String) (r : OrgRole) (hr : getOrgRole ms o u = some r) :
    ms.countP (fun m => m.organizationId == o && m.userId == u) = 1 := by
  unfold getOrgRole at hr
  obtain ⟨m, hfind, hrole⟩ := Option.map_eq_some'.mp hr
  have hm := List.mem_of_find?_eq_some hfind
  have hpm := List.find?_some hfind
  have hpos : 0 < ms.countP (fun m => m.organizationId == o && m.userId == u) :=
    List.countP_pos_iff.mpr ⟨m, hm, hpm⟩
  exact Nat.le_antisymm (countP_key_le_one ms hk o u) hpos

theorem owner_key_count_one (ms : List OrgMembershipRow) (hk : KeysDistinct ms)
    (o u : String) (hr : getOrgRole ms o u = some OrgRole.OWNER) :
    ms.countP (fun m => (m.organizationId == o && m.role == OrgRole.OWNER)
        && (m.organizationId == o && m.userId == u)) = 1 := by
  unfold getOrgRole at hr
  obtain ⟨m, hfind, hrole⟩ := Option.map_eq_some'.mp hr
  have hm := List.mem_of_find?_eq_some hfind
  have hp := List.find?_some hfind
  have hpos : 0 < ms.countP (fun m => (m.organizationId == o && m.role == OrgRole.OWNER)
      && (m.organizationId == o && m.userId == u)) := by
    refine List.countP_pos_iff.mpr ⟨m, hm, ?_⟩
    simp only [Bool.and_eq_true, beq_iff_eq] at hp ⊢
    exact ⟨⟨hp.1, hrole⟩, hp⟩
  have hle : ms.countP (fun m => (m.organizationId == o && m.role == OrgRole.OWNER)
        && (m.organizationId == o && m.userId == u))
      ≤ ms.countP (fun m => m.organizationId == o && m.userId == u) := by
    refine List.countP_mono_left ?_
    intro x _ hx
    exact ((Bool.and_eq_true _ _).mp hx).2
  exact Nat.le_antisymm (le_trans hle (countP_key_le_one ms hk o u)) hpos

theorem countP_and_not_split (ms : List OrgMembershipRow)
    (p q : OrgMembershipRow → Bool) :
    ms.countP p
      = ms.countP (fun m => p m && q m) + ms.countP (fun m => p m && !q m) := by
  induction ms with
  | nil => simp
  | cons a t ih =>
      simp only [List.countP_cons]
      by_cases hp : p a = true <;> by_cases hq : q a = true <;>
        simp [hp, hq] <;> omega

theorem countOwners_setMemberRole_demote (ms : List OrgMembershipRow) (o u : String) :
    countOwners (setMemberRole ms o u OrgRole.ADMIN) o
      = ms.countP (fun m => (m.organizationId == o && m.role == OrgRole.OWNER)
          && !(m.organizationId == o && m.userId == u)) := by
  unfold countOwners setMemberRole
  rw [List.countP_map]
  apply List.countP_congr
  intro m _
  by_cases hk : (m.organizationId == o && m.userId == u) = true
  · simp [Function.comp, hk]
  · simp [Function.comp, hk]

theorem countOwners_setMemberRole_promote (ms : List OrgMembershipRow) (o u : String) :
    countOwners (setMemberRole ms o u OrgRole.OWNER) o
      = ms.countP (fun m => (m.organizationId == o && m.role == OrgRole.OWNER)
            && !(m.organizationId == o && m.userId == u))
        + ms.countP (fun m => m.organizationId == o && m.userId == u) := by
  induction ms with
  | nil => rfl
  | cons a t ih =>
      unfold countOwners setMemberRole at ih ⊢
      simp only [List.map_cons, List.countP_cons]
      rw [ih]
      cases hk : (a.organizationId == o && a.userId == u) with
      | true =>
          have ho : (a.organizationId == o) = true := ((Bool.and_eq_true _ _).mp hk).1
          simp [hk, ho]
          omega
      | false =>
          simp [hk]
          omega

theorem countP_key_setMemberRole (ms : List OrgMembershipRow) (o2 u2 : String)
    (r : OrgRole) (o u : String) :
    (setMemberRole ms o2 u2 r).countP (fun m => m.organizationId == o && m.userId == u)
      = ms.countP (fun m => m.organizationId == o && m.userId == u) := by
  unfold setMemberRole
  rw [List.countP_map]
  apply List.countP_congr
  intro m _
  by_cases hk : (m.organizationId == o2 && m.userId == u2) = true
  · simp [Function.comp, hk]
  · simp [Function.comp, hk]

/-! ## Claim theorems -/

/-- C7: `storeActivity` on a room list under the capacity of 20 inserts the
new activity at the head and evicts nothing; on a list of exactly 20 entries
it evicts exactly the oldest (tail) entry and inserts the new one at the
head, and the length stays at 20; starting at or under capacity the length
never exceeds 20. -/
theorem c7_store_capacity (l : List Activity) (a : Activity) :
    (l.length < 20 → storeActivity l a = a :: l)
    ∧ (l.length = 20 →
        storeActivity l a = a :: l.dropLast ∧ (storeActivity l a).length = 20)
    ∧ (l.length ≤ 20 → (storeActivity l a).length ≤ 20) := by
  refine ⟨fun hlt => ?_, fun heq => ⟨?_, ?_⟩, fun hle => ?_⟩
  · simp [storeActivity, maxActivities, Nat.not_le.mpr hlt]
  · simp [storeActivity, maxActivities, heq]
  · have hne : l ≠ [] := by
      intro h
      rw [h] at heq
      simp at heq
    simp [storeActivity, maxActivities, heq, List.length_dropLast, heq]
  · by_cases h : l.length ≥ 20
    · have hne : l ≠ [] := by
        intro hnil
        rw [hnil] at h
        simp at h
      simp [storeActivity, maxActivities, h, List.length_dropLast]
      omega
    · have := Nat.not_le.mp h
      simp [storeActivity, maxActivities, h]
      omega

/-- Witness for C7 at a concrete room list of exactly 20 entries. -/
theorem c7_store_capacity_witness :
    storeActivity (List.replicate 20 act0) act1 = act1 :: (List.replicate 20 act0).dropLast
    ∧ (storeActivity (List.replicate 20 act0) act1).length = 20 :=
  (c7_store_capacity (List.replicate 20 act0) act1).2.1 (by simp)

/-- C9: on a room list whose length is at least the capacity of 20 —
including lengths strictly greater than 20 — `storeActivity` removes exactly
the one tail entry and conses exactly one head entry, leaving the total
length unchanged; an over-capacity list is never trimmed down to 20. -/
theorem c9_store_over_capacity (l : List Activity) (a : Activity) (h : 20 ≤ l.length) :
    storeActivity l a = a :: l.dropLast
    ∧ (storeActivity l a).length = l.length := by
  have hne : l ≠ [] := by
    intro hnil
    rw [hnil] at h
    simp at h
  constructor
  · simp [storeActivity, maxActivities, h]
  · simp [storeActivity, maxActivities, h, List.length_dropLast]
    omega

/-- Witness for C9 at a concrete room list of 21 entries: the length stays
21, not 20. -/
theorem c9_store_over_capacity_witness :
    storeActivity (List.replicate 21 act0) act1 = act1 :: (List.replicate 21 act0).dropLast
    ∧ (storeActivity (List.replicate 21 act0) act1).length = (List.replicate 21 act0).length :=
  c9_store_over_capacity (List.replicate 21 act0) act1 (by simp)

/-- C8: recording an activity for a room and then reading the room back with
`getActivities(page 1, limit 20, no kind filter)` returns the recorded
activity as the first (most recent) element, with all fields matching the
record that was stored. -/
theorem c8_record_get_round_trip (cache : String → List Activity) (roomKey : String)
    (a : Activity) :
    (getActivities (recordInCache cache roomKey a roomKey) 1 20 none).1.head? = some a := by
  have hstore : ∃ t, storeActivity (cache roomKey) a = a :: t := by
    unfold storeActivity
    split
    · exact ⟨_, rfl⟩
    · exact ⟨_, rfl⟩
  obtain ⟨t, ht⟩ := hstore
  simp [recordInCache, getActivities, ht]

/-- C10: `deleteActivity` removes every entry whose id equals the given
activity id, and re-inserting the survivors by repeated head-pushes leaves
them in the reverse of their previous head-to-tail order, so the previously
newest (head) surviving entry becomes the tail. -/
theorem c10_delete_reverses_order (l : List Activity) (activityId : String) :
    deleteActivity l activityId
      = (l.filter (fun (a : Activity) => a.id != activityId)).reverse
    ∧ (deleteActivity l activityId).getLast?
      = (l.filter (fun (a : Activity) => a.id != activityId)).head? := by
  have hdel : deleteActivity l activityId
      = (l.filter (fun (a : Activity) => a.id != activityId)).reverse := by
    unfold deleteActivity
    by_cases h : (l.filter (fun (a : Activity) => a.id != activityId)).length > 0
    · simp only [h, if_pos]
      rw [lPushLoop_eq_reverse_append]
      simp
    · have : l.filter (fun (a : Activity) => a.id != activityId) = [] :=
        List.length_eq_zero.mp (by omega)
      simp [h, this]
  refine ⟨hdel, ?_⟩
  rw [hdel]
  exact List.getLast?_reverse _

/-- C4 counterexample: the redis-variant `logActivity` (present in the
sources the claim cites) performs a websocket broadcast in a run in which no
durable database save was ever attempted, let alone succeeded — refuting
"for every logActivity call, the broadcast occurs only after the durable
database save of that activity has succeeded". -/
theorem c4_redis_broadcast_without_save :
    LogEvent.broadcast ∈ (logActivityRedis true true true true).events
    ∧ LogEvent.dbSaveOk ∉ (logActivityRedis true true true true).events
    ∧ LogEvent.dbSaveAttempt ∉ (logActivityRedis true true true true).events := by
  decide

/-- C4 as amended: in the database-backed `ActivityService.logActivity`, a
broadcast only ever happens after the durable save succeeded, and when the
durable save fails the call throws with neither a live-cache push nor a
broadcast; the redis-variant `logActivity` instead broadcasts after only a
live-cache push and never attempts a durable save. In both variants a
broadcast never fails the originating request: the broadcast call has no
failure path in the source, so every run that performs the broadcast
completes without throwing. -/
theorem c4_write_then_announce
    (orgFound actorFound saveSucceeds cacheSucceeds wsAvailable : Bool) :
    broadcastOnlyAfterSave (logActivityDb orgFound actorFound saveSucceeds wsAvailable).events
      = true
    ∧ (saveSucceeds = false →
        LogEvent.broadcast ∉ (logActivityDb orgFound actorFound saveSucceeds wsAvailable).events
        ∧ LogEvent.cachePush ∉ (logActivityDb orgFound actorFound saveSucceeds wsAvailable).events)
    ∧ LogEvent.dbSaveAttempt
        ∉ (logActivityRedis orgFound actorFound cacheSucceeds wsAvailable).events
    ∧ (LogEvent.broadcast
          ∈ (logActivityDb orgFound actorFound saveSucceeds wsAvailable).events →
        (logActivityDb orgFound actorFound saveSucceeds wsAvailable).threw = false)
    ∧ (LogEvent.broadcast
          ∈ (logActivityRedis orgFound actorFound cacheSucceeds wsAvailable).events →
        (logActivityRedis orgFound actorFound cacheSucceeds wsAvailable).threw = false) := by
  revert orgFound actorFound saveSucceeds cacheSucceeds wsAvailable
  decide

/-- Witness for C4: at a concrete failing durable save, neither the cache
push nor the broadcast happens; and at concrete broadcast-performing runs of
both variants, the request does not throw. -/
theorem c4_write_then_announce_witness :
    (LogEvent.broadcast ∉ (logActivityDb true true false true).events
      ∧ LogEvent.cachePush ∉ (logActivityDb true true false true).events)
    ∧ (logActivityDb true true true true).threw = false
    ∧ (logActivityRedis true true true true).threw = false :=
  ⟨(c4_write_then_announce true true false true true).2.1 rfl,
    (c4_write_then_announce true true true true true).2.2.2.1 (by decide),
    (c4_write_then_announce true true true true true).2.2.2.2 (by decide)⟩

/-- C1: with referential integrity on `org_memberships.user_id` (every
membership row's user exists, as the schema's foreign key guarantees) and a
non-empty organization id, binding the organization context succeeds —
`next()` is reached with `req.organizationId` and `app.organization_id` set —
iff an `org_memberships` row exists for the (user, organization) pair; when
no row exists the middleware answers 403 before the route handler can run
any business query, `req.organizationId` is never assigned and
`app.organization_id` is never set. -/
theorem c1_bind_iff_membership (db : DBState) (u o : String)
    (hwf : ∀ m ∈ db.memberships, m.userId ∈ db.users) (ho : o ≠ "") :
    (setOrganizationContext db initialSession u (some o) true
        = .proceed (some o) ⟨some u, some o⟩
      ↔ hasMembershipRow db u o = true)
    ∧ (hasMembershipRow db u o = false →
        setOrganizationContext db initialSession u (some o) true
          = .forbidden 403 ⟨some u, none⟩) := by
  have hmono : membershipWithUserExists db u o = true → hasMembershipRow db u o = true := by
    intro h
    obtain ⟨m, hm, hp⟩ := List.any_eq_true.mp h
    simp only [Bool.and_eq_true] at hp
    exact List.any_eq_true.mpr ⟨m, hm, by simp [hp.1.1, hp.1.2]⟩
  have hver : membershipWithUserExists db u o = hasMembershipRow db u o := by
    cases hrow : hasMembershipRow db u o with
    | true =>
        obtain ⟨m, hm, hp⟩ := List.any_eq_true.mp hrow
        refine List.any_eq_true.mpr ⟨m, hm, ?_⟩
        simp only [Bool.and_eq_true] at hp ⊢
        exact ⟨hp, List.any_eq_true.mpr ⟨m.userId, hwf m hm, by simp⟩⟩
    | false =>
        cases h : membershipWithUserExists db u o with
        | false => rfl
        | true => exact absurd (hmono h) (by simp [hrow])
  have hbne : (o != "") = true := by
    simpa using ho
  cases hrow : hasMembershipRow db u o with
  | true =>
      rw [hrow] at hver
      constructor
      · simp [setOrganizationContext, setUserContextInDB, hver, hbne, initialSession]
      · intro hfalse
        exact absurd hfalse (by simp)
  | false =>
      rw [hrow] at hver
      constructor
      · simp [setOrganizationContext, setUserContextInDB, hver, hbne, initialSession]
      · intro _
        simp [setOrganizationContext, setUserContextInDB, hver, hbne, initialSession]

/-- Witness for C1 at a concrete one-member database. -/
theorem c1_bind_iff_membership_witness :
    (setOrganizationContext dbC1 initialSession "u1" (some "org1") true
        = .proceed (some "org1") ⟨some "u1", some "org1"⟩
      ↔ hasMembershipRow dbC1 "u1" "org1" = true)
    ∧ (hasMembershipRow dbC1 "u1" "org1" = false →
        setOrganizationContext dbC1 initialSession "u1" (some "org1") true
          = .forbidden 403 ⟨some "u1", none⟩) :=
  c1_bind_iff_membership dbC1 "u1" "org1" (by decide) (by decide)

/-- C2 counterexample: the claim as stated fails at the request that supplies
the empty string as `roomKey`: JS `roomKey || organization.roomKey` treats
the empty string as falsy, so the handler falls back to the verified
organization's room (returning its empty list) instead of the caller-supplied
key's list. -/
theorem c2_empty_roomkey_counterexample :
    activityFeedGet [orgC2] cacheC2 "1" (some "") 1 20 none
        ≠ .ok (getActivities (cacheC2 "") 1 20 none).1
            (getActivities (cacheC2 "") 1 20 none).2 orgC2.roomKey
    ∧ activityFeedGet [orgC2] cacheC2 "1" (some "") 1 20 none
        = .ok [] 0 "room-1" := by
  decide

/-- C2 as amended: whenever the request supplies a *non-empty* `roomKey`
query parameter, the feed response is computed from the cache list keyed by
that caller-supplied value — the authorized organization's own room key plays
no role in selecting the data, even when the two keys differ. -/
theorem c2_caller_roomkey_controls_response (orgs : List OrganizationRow)
    (cache : String → List Activity) (organizationId rk : String) (page limit : Nat)
    (kind : Option String) (org : OrganizationRow)
    (hfind : orgs.find? (fun (o : OrganizationRow) => o.id == organizationId) = some org)
    (hrk : rk ≠ "") :
    activityFeedGet orgs cache organizationId (some rk) page limit kind
      = .ok (getActivities (cache rk) page limit kind).1
          (getActivities (cache rk) page limit kind).2 org.roomKey := by
  have hbne : (rk != "") = true := by simpa using hrk
  simp [activityFeedGet, hfind, hbne]

/-- Witness for C2 at a concrete request whose supplied room key differs from
the organization's: the caller's key selects the (empty) list. -/
theorem c2_caller_roomkey_controls_response_witness :
    activityFeedGet [orgC2] cacheC2 "1" (some "other-room") 1 20 none
      = .ok (getActivities (cacheC2 "other-room") 1 20 none).1
          (getActivities (cacheC2 "other-room") 1 20 none).2 orgC2.roomKey :=
  c2_caller_roomkey_controls_response [orgC2] cacheC2 "1" "other-room" 1 20 none orgC2
    (by decide) (by decide)

/-- C3 counterexample: the one-OWNER-per-organization invariant does not hold
at every observable point. Starting from a table with exactly one OWNER, the
accepted request `updateMemberRole(org1, caller u1 = OWNER, target u2,
role "OWNER")` passes every check of the member-role endpoint and commits a
table with two OWNER rows. -/
theorem c3_second_owner_counterexample :
    countOwners dbC3 "org1" = 1
    ∧ updateMemberRole dbC3 "org1" "u1" "u2" "OWNER"
        = .ok [⟨"org1", "u1", .OWNER⟩, ⟨"org1", "u2", .OWNER⟩]
    ∧ countOwners [⟨"org1", "u1", .OWNER⟩, ⟨"org1", "u2", .OWNER⟩] "org1" = 2 := by
  decide

/-- C3 as amended: `transferOwnership` itself preserves the invariant. On a
membership table with distinct (organization, user) keys and exactly one
OWNER of the organization, an accepted transfer demotes the calling OWNER
and promotes the target member inside one transaction, and every state a
concurrent reader can observe (the pre-state and the committed post-state —
the half-transferred table is never visible) has exactly one OWNER; but the
organization-wide invariant itself can still be violated through the
member-role endpoint, as the counterexample shows. -/
theorem c3_transfer_preserves_single_owner (ms ms2 : List OrgMembershipRow)
    (organizationId callerId newOwnerId : String)
    (hkeys : KeysDistinct ms)
    (hone : countOwners ms organizationId = 1)
    (hok : transferOwnership ms organizationId callerId newOwnerId = .ok ms2) :
    ms2 = transferApply ms organizationId callerId newOwnerId
    ∧ ∀ s ∈ transferObservableStates ms organizationId callerId newOwnerId,
        countOwners s organizationId = 1 := by
  unfold transferOwnership at hok
  by_cases hemp : (newOwnerId == "") = true
  · rw [if_pos hemp] at hok
    exact absurd hok (by simp)
  rw [if_neg hemp] at hok
  cases hcaller : getOrgRole ms organizationId callerId with
  | none =>
      rw [hcaller] at hok
      exact absurd hok (by simp)
  | some cr =>
      rw [hcaller] at hok
      cases cr with
      | ADMIN => exact absurd hok (by simp)
      | USER => exact absurd hok (by simp)
      | OWNER =>
          cases hnew : getOrgRole ms organizationId newOwnerId with
          | none =>
              rw [hnew] at hok
              exact absurd hok (by simp)
          | some nr =>
              rw [hnew] at hok
              have hms2 : ms2 = transferApply ms organizationId callerId newOwnerId := by
                injection hok with h
                exact h.symm
              refine ⟨hms2, ?_⟩
              have hok1 := owner_key_count_one ms hkeys organizationId callerId hcaller
              have hsplitC := countP_and_not_split ms
                (fun m => m.organizationId == organizationId && m.role == OrgRole.OWNER)
                (fun m => m.organizationId == organizationId && m.userId == callerId)
              have honeP : ms.countP
                  (fun m => m.organizationId == organizationId && m.role == OrgRole.OWNER)
                  = 1 := by
                rw [← countOwners_def]
                exact hone
              have hrest : ms.countP
                  (fun m => (m.organizationId == organizationId && m.role == OrgRole.OWNER)
                    && !(m.organizationId == organizationId && m.userId == callerId)) = 0 := by
                omega
              have hnk := getOrgRole_count_one ms hkeys organizationId newOwnerId nr hnew
              have hinner : countOwners
                  (setMemberRole ms organizationId callerId OrgRole.ADMIN) organizationId
                  = 0 := by
                rw [countOwners_setMemberRole_demote]
                exact hrest
              have hpromote := countOwners_setMemberRole_promote
                (setMemberRole ms organizationId callerId OrgRole.ADMIN)
                organizationId newOwnerId
              have hz : (setMemberRole ms organizationId callerId OrgRole.ADMIN).countP
                  (fun m => (m.organizationId == organizationId && m.role == OrgRole.OWNER)
                    && !(m.organizationId == organizationId && m.userId == newOwnerId))
                  = 0 := by
                have hle : (setMemberRole ms organizationId callerId OrgRole.ADMIN).countP
                    (fun m => (m.organizationId == organizationId && m.role == OrgRole.OWNER)
                      && !(m.organizationId == organizationId && m.userId == newOwnerId))
                    ≤ (setMemberRole ms organizationId callerId OrgRole.ADMIN).countP
                      (fun m => m.organizationId == organizationId
                        && m.role == OrgRole.OWNER) := by
                  refine List.countP_mono_left ?_
                  intro x _ hx
                  exact ((Bool.and_eq_true _ _).mp hx).1
                rw [← countOwners_def] at hle
                omega
              have hkeyinner := countP_key_setMemberRole ms organizationId callerId
                OrgRole.ADMIN organizationId newOwnerId
              have hpost : countOwners
                  (transferApply ms organizationId callerId newOwnerId) organizationId
                  = 1 := by
                unfold transferApply
                rw [hpromote, hz, hkeyinner, hnk]
              intro s hs
              simp only [transferObservableStates, List.mem_cons,
                List.not_mem_nil, or_false] at hs
              rcases hs with rfl | rfl
              · exact hone
              · exact hpost

/-- Witness for C3 at the concrete two-member table: after the accepted
transfer from u1 to u2 the organization still has exactly one OWNER. -/
theorem c3_transfer_preserves_single_owner_witness :
    countOwners (transferApply dbC3 "org1" "u1" "u2") "org1" = 1 :=
  (c3_transfer_preserves_single_owner dbC3 (transferApply dbC3 "org1" "u1" "u2")
      "org1" "u1" "u2" (by decide) (by decide) (by decide)).2
    (transferApply dbC3 "org1" "u1" "u2") (by simp [transferObservableStates])

/-- C5: in the task-update handler, a supplied `status` field is permitted
iff the caller is the task's assignee or the shared edit access holds, a
supplied non-status field (title, description, assignee, due date, priority,
board order) is permitted iff the shared edit access holds — assignee status
alone never suffices — and any other combination is rejected with one of the
two 403 responses; the shared edit access holds iff the organization role is
OWNER or ADMIN or the project role is EDITOR. -/
theorem c5_task_update_permissions (isAssignee : Bool) (projectRole : Option ProjectRole)
    (orgRole : Option OrgRole) (b : TaskUpdateBody)
    (assigneeNull assigneeIsMember : Bool) :
    ((updateTaskHandler true isAssignee projectRole orgRole b assigneeNull assigneeIsMember
          ≠ TaskUpdateOutcome.forbiddenStatus
        ∧ updateTaskHandler true isAssignee projectRole orgRole b assigneeNull
            assigneeIsMember ≠ TaskUpdateOutcome.forbiddenFields)
      ↔ ((b.status = true →
            (isAssignee = true ∨ canEditProjectAccess projectRole orgRole = true))
          ∧ (nonStatusFieldPresent b = true
              → canEditProjectAccess projectRole orgRole = true)))
    ∧ (canEditProjectAccess projectRole orgRole = true
        ↔ (orgRole = some OrgRole.OWNER ∨ orgRole = some OrgRole.ADMIN
            ∨ projectRole = some ProjectRole.EDITOR)) := by
  obtain ⟨t, d, s, a, u, p, ob⟩ := b
  revert isAssignee assigneeNull assigneeIsMember t d s a u p ob projectRole orgRole
  decide

/-- Witness for C5 at a concrete role snapshot: an ADMIN who is not a project
EDITOR has the shared edit access. -/
theorem c5_task_update_permissions_witness :
    canEditProjectAccess (some ProjectRole.VIEWER) (some OrgRole.ADMIN) = true
      ↔ (some OrgRole.ADMIN = some OrgRole.OWNER ∨ some OrgRole.ADMIN = some OrgRole.ADMIN
          ∨ some ProjectRole.VIEWER = some ProjectRole.EDITOR) :=
  (c5_task_update_permissions true (some ProjectRole.VIEWER) (some OrgRole.ADMIN)
      ⟨false, false, true, false, false, false, false⟩ false false).2

/-- C6: in the project-update handler, updating is permitted iff the
organization role is OWNER or ADMIN or the project role is EDITOR; a caller
with neither gets the 403 response and the projects table is unchanged. -/
theorem c6_project_update_permissions (projects : List ProjectRow)
    (organizationId projectId : String) (projectRole : Option ProjectRole)
    (orgRole : Option OrgRole) (name slug : String) (slugTaken : Bool) :
    ((updateProjectHandler projects organizationId projectId
          (some (projectRole, orgRole)) name slug slugTaken).1
        ≠ ProjectUpdateOutcome.forbidden
      ↔ (orgRole = some OrgRole.OWNER ∨ orgRole = some OrgRole.ADMIN
          ∨ projectRole = some ProjectRole.EDITOR))
    ∧ (¬(orgRole = some OrgRole.OWNER ∨ orgRole = some OrgRole.ADMIN
          ∨ projectRole = some ProjectRole.EDITOR) →
        updateProjectHandler projects organizationId projectId
            (some (projectRole, orgRole)) name slug slugTaken
          = (ProjectUpdateOutcome.forbidden, projects)) := by
  have hiff : canEditProjectAccess projectRole orgRole = true
      ↔ (orgRole = some OrgRole.OWNER ∨ orgRole = some OrgRole.ADMIN
          ∨ projectRole = some ProjectRole.EDITOR) := by
    simp [canEditProjectAccess]
    tauto
  by_cases hce : canEditProjectAccess projectRole orgRole = true
  · constructor
    · constructor
      · intro _
        exact hiff.mp hce
      · intro _
        simp only [updateProjectHandler, hce, Bool.not_true, Bool.false_eq_true,
          if_false]
        split
        · simp
        · split
          · simp
          · simp
    · intro hn
      exact absurd (hiff.mp hce) hn
  · have hfalse : canEditProjectAccess projectRole orgRole = false := by
      cases h : canEditProjectAccess projectRole orgRole with
      | true => exact absurd h hce
      | false => rfl
    have hforb : updateProjectHandler projects organizationId projectId
        (some (projectRole, orgRole)) name slug slugTaken
      = (ProjectUpdateOutcome.forbidden, projects) := by
      simp [updateProjectHandler, hfalse]
    constructor
    · constructor
      · intro hne
        exact absurd (by rw [hforb]) hne
      · intro hp
        exact absurd (hiff.mpr hp) hce
    · intro _
      exact hforb

/-- Witness for C6 at a concrete caller with project role VIEWER and
organization role USER: the update is rejected with 403 and the table is
unchanged. -/
theorem c6_project_update_permissions_witness :
    updateProjectHandler [projC6] "org1" "p1"
        (some (some ProjectRole.VIEWER, some OrgRole.USER)) "NewName" "" false
      = (ProjectUpdateOutcome.forbidden, [projC6]) :=
  (c6_project_update_permissions [projC6] "org1" "p1" (some ProjectRole.VIEWER)
      (some OrgRole.USER) "NewName" "" false).2 (by decide)
